import Mathlib

/-!
Shallow embedding of tern's `common.py` (metadata-resolution pipeline).

The data classes (`Package`, `Notice`, `Layer`, `Image`, `Command`) and the
external collaborators (`command_lib`, the layer cache, the container check,
the attribute invoker) live outside `src/`; they are modelled from the spec's
data model (section 3) and external-interface contracts (section 6) as plain
records and environment parameters.  Every function of `common.py` is
translated statement by statement; observable effects (cache writes, cache
queries, logger errors, object construction) are made explicit in the
returned values.
-/

namespace Tern

/-- Modelled from the spec: a Notice is a leveled diagnostic record with an
origin, a message and a level drawn from info / warning / error / hint. -/
structure Notice where
  origin : String
  message : String
  level : String
deriving Repr, DecidableEq

/-- Modelled from the spec: a Package has a required name and optional
version, license, source URL and a collection of Notices; packages are
created empty and filled incrementally. -/
structure Package where
  name : String
  version : String := ""
  license : String := ""
  src_url : String := ""
  notices : List Notice := []
deriving Repr, DecidableEq

/-- Modelled from the spec: a Layer has an identifier, an unordered
collection of Packages and a collection of Notices. -/
structure Layer where
  id : String
  packages : List Package := []
  notices : List Notice := []
deriving Repr, DecidableEq

/-- Modelled from the spec: an Image has a name, a tag, an ordered sequence
of Layers and a collection of Notices. -/
structure Image where
  name : String
  tag : String
  layers : List Layer := []
  notices : List Notice := []
deriving Repr, DecidableEq

/-- Modelled from the spec: a Command carries its raw shell string, its
parsed word sequence, a recognition flag and a classification
(install / ignore / neither).  `is_set`, `is_ignore` and `is_install`
mirror the methods of the same names on the Command class. -/
structure Command where
  shell_command : String
  words : List String := []
  is_set : Bool
  is_ignore : Bool := false
  is_install : Bool := false
deriving Repr, DecidableEq

/-- Embeds `layer.add_package(pkg)`: appends a package to the layer. -/
def Layer.add_package (layer : Layer) (pkg : Package) : Layer :=
  { layer with packages := layer.packages ++ [pkg] }

/-- Embeds `layer.add_notice(notice)`: appends a notice to the layer. -/
def Layer.add_notice (layer : Layer) (n : Notice) : Layer :=
  { layer with notices := layer.notices ++ [n] }

/-- Embeds `image.add_notice(notice)`: appends a notice to the image. -/
def Image.add_notice (image : Image) (n : Notice) : Image :=
  { image with notices := image.notices ++ [n] }

/-- Embeds `pkg.add_notice(notice)`: appends a notice to the package. -/
def Package.add_notice (pkg : Package) (n : Notice) : Package :=
  { pkg with notices := pkg.notices ++ [n] }

/-! ## Command filter pipeline (`remove_ignored_commands`,
`remove_unrecognized_commands`) -/

/-- Accumulator loop of `remove_ignored_commands`: pop commands off the
front; a command that is set and classified ignore is appended to the
string of ignored commands, every other command is appended to the
filtered list. -/
def removeIgnoredAux (acc : String) (filtered : List Command) :
    List Command → String × List Command
  | [] => (acc, filtered)
  | command :: rest =>
      if command.is_set && command.is_ignore then
        removeIgnoredAux (acc ++ command.shell_command ++ "\n") filtered rest
      else
        removeIgnoredAux acc (filtered ++ [command]) rest

/-- Embeds `remove_ignored_commands(command_list)`: returns the concatenated text
of the ignored commands and the filtered list of the remaining commands. -/
def remove_ignored_commands (command_list : List Command) :
    String × List Command :=
  removeIgnoredAux "" [] command_list

/-- Accumulator loop of `remove_unrecognized_commands`: a command whose
recognition flag is unset is appended to the unrecognized text, every
other command is appended to the filtered list. -/
def removeUnrecognizedAux (acc : String) (filtered : List Command) :
    List Command → String × List Command
  | [] => (acc, filtered)
  | command :: rest =>
      if !command.is_set then
        removeUnrecognizedAux (acc ++ command.shell_command ++ "\n") filtered rest
      else
        removeUnrecognizedAux acc (filtered ++ [command]) rest

/-- Embeds `remove_unrecognized_commands(command_list)`: returns the concatenated
text of the unrecognized commands and the filtered list of the rest. -/
def remove_unrecognized_commands (command_list : List Command) :
    String × List Command :=
  removeUnrecognizedAux "" [] command_list

/-- The commands of a list that `remove_ignored_commands` emits as ignored
text: those that are recognized and classified ignore. -/
def ignoredOf (l : List Command) : List Command :=
  l.filter (fun c => c.is_set && c.is_ignore)

/-- The commands of a list that `remove_unrecognized_commands` emits as
unrecognized text: those whose recognition flag is unset. -/
def unrecognizedOf (l : List Command) : List Command :=
  l.filter (fun c => !c.is_set)

/-- The concatenated text that the filters build from a list of removed
commands: each shell command followed by a newline. -/
def commandText : List Command → String
  | [] => ""
  | c :: rest => c.shell_command ++ "\n" ++ commandText rest


/-- Modelled from the spec: the cache stores, per layer id, one attribute
mapping per package with keys matching the Package attributes;
`pkg.fill(pkg_dict)` copies them onto a freshly created package. -/
structure PkgDict where
  name : String
  version : String := ""
  license : String := ""
  src_url : String := ""
deriving Repr, DecidableEq

/-- Embeds `Package(pkg_dict[name])` followed by `pkg.fill(pkg_dict)`. -/
def pkgOfDict (d : PkgDict) : Package :=
  { name := d.name, version := d.version, license := d.license,
    src_url := d.src_url }

/-- Environment of `load_from_cache`: the cache store `cache.get_packages`,
the string `image.get_image_option()` and the message template
`info.loading_from_cache`.  All three are external collaborators. -/
structure CacheEnv where
  get_packages : String → Option (List PkgDict)
  get_image_option : String
  loading_from_cache : String → String

/-- A placeholder layer used only as the default value of list lookups in
theorem statements. -/
def dummyLayer : Layer := { id := "" }

/-- Loop body of `load_from_cache` for a single layer: when the layer has
no packages, the cache is queried by layer id; a miss (no entry or an
empty list, both falsy in the source) clears the full flag, a hit attaches
the loading-from-cache notice and adds one package per cached mapping.
Returns the updated layer, the layer's contribution to `is_full`, and the
list of cache queries made for this layer. -/
def load_layer (env : CacheEnv) (layer : Layer) :
    Layer × Bool × List String :=
  if layer.packages.isEmpty then
    match env.get_packages layer.id with
    | none => (layer, false, [layer.id])
    | some [] => (layer, false, [layer.id])
    | some (d :: ds) =>
        let from_cache_notice : Notice :=
          { origin := env.get_image_option ++ layer.id,
            message := env.loading_from_cache layer.id,
            level := "info" }
        let layer1 := layer.add_notice from_cache_notice
        let layer2 :=
          (d :: ds).foldl (fun ly pd => ly.add_package (pkgOfDict pd)) layer1
        (layer2, true, [layer.id])
  else (layer, true, [])

/-- The `for layer in image.layers` loop of `load_from_cache`: processes
the layers in order, conjoining the `is_full` contributions and
concatenating the query lists. -/
def loadLayersAux (env : CacheEnv) : List Layer → List Layer × Bool × List String
  | [] => ([], true, [])
  | layer :: rest =>
      let r := load_layer env layer
      let rr := loadLayersAux env rest
      (r.1 :: rr.1, r.2.1 && rr.2.1, r.2.2 ++ rr.2.2)

/-- Embeds `load_from_cache(image)`: hydrates package-less layers from the cache
and reports whether all layers ended up with packages.  The third
component records, as instrumentation, the layer ids that were looked up
in the cache. -/
def load_from_cache (env : CacheEnv) (image : Image) :
    Image × Bool × List String :=
  let r := loadLayersAux env image.layers
  ({ image with layers := r.1 }, r.2.1, r.2.2)

/-- The `info` argument of `add_base_packages`: the four base-section
attribute keys, each naming a listing in the command library's base
section (not a literal value).  A listing is kept abstract as a string
token. -/
structure BaseInfo where
  names : String
  versions : String
  licenses : String
  src_urls : String

/-- Environment of `add_base_packages`: the command-library base listing
for `(image.name, image.tag)` (`cmdlib.get_base_listing`), the shell
lookup (`cmdlib.get_image_shell`, empty string when falsy), the
container-state check (`check_container`), the attribute invoker
(`cmdlib.get_pkg_attr_list` without a package name), the default shell
constant (`const.shell`) and the formatted message strings from
`report.errors`. -/
structure BaseEnv where
  listing : Option String
  get_image_shell : String → String × String
  check_container : Bool
  get_pkg_attr_list : String → String → List String × String
  shell : String
  no_shell_listing : String
  no_listing_for_base_key : String
  no_running_docker_container : String
  no_image_tag_listing : String

/-- The shell `add_base_packages` invokes with: the one declared by the
listing, or the default shell constant when the declared one is falsy. -/
def baseShell (env : BaseEnv) (listing : String) : String :=
  if ((env.get_image_shell listing).1).isEmpty then env.shell
  else (env.get_image_shell listing).1

/-- The (values, message) pair returned by one base attribute invocation
`cmdlib.get_pkg_attr_list(shell, info[key])` in `add_base_packages`. -/
def invokedAttr (env : BaseEnv) (listing : String) (key : String) :
    List String × String :=
  env.get_pkg_attr_list (baseShell env listing) key

/-- The package built by the base loop of `add_base_packages` at `index`:
named `names[index]`; each of version, license and source URL is copied
from its list only when that list's length equals the length of the
names list. -/
def buildBasePkg (names versions licenses src_urls : List String)
    (index : Nat) : Package :=
  let pkg : Package := { name := names.getD index "" }
  let pkg := if versions.length = names.length then
      { pkg with version := versions.getD index "" } else pkg
  let pkg := if licenses.length = names.length then
      { pkg with license := licenses.getD index "" } else pkg
  if src_urls.length = names.length then
      { pkg with src_url := src_urls.getD index "" } else pkg

/-- The `for index in range(0, len(names))` loop of `add_base_packages`:
the package at each index is built, and only inside the source-URL
length-check branch is it appended to every layer.  The second component
accumulates, as instrumentation, every Package object constructed. -/
def baseLoopAux (names versions licenses src_urls : List String) :
    List Nat → List Layer → List Package → List Layer × List Package
  | [], layers, constructed => (layers, constructed)
  | index :: rest, layers, constructed =>
      if src_urls.length = names.length then
        baseLoopAux names versions licenses src_urls rest
          (layers.map (fun ly =>
            ly.add_package (buildBasePkg names versions licenses src_urls index)))
          (constructed ++ [buildBasePkg names versions licenses src_urls index])
      else
        baseLoopAux names versions licenses src_urls rest layers
          (constructed ++ [buildBasePkg names versions licenses src_urls index])

/-- Instrumented result of `add_base_packages`: the image after the call,
the layers passed to `cache.add_layer` in order, the messages sent to
`logger.error`, and every Package object constructed during the call. -/
structure BaseResult where
  image : Image
  cached : List Layer
  logged : List String
  constructed : List Package

/-- Embeds `add_base_packages(image, info)`: resolve the base listing; when
absent attach an error notice; when present resolve the shell (falling
back to the default with a warning and a hint notice), and if a container
is running invoke the four base attribute listings, attach an error
notice when any invocation reported a message, build packages when the
names list has more than one entry (attaching them to every layer only
under the source-URL length check) and pass every layer to
`cache.add_layer`; when no container is running, log an error and
return. -/
def add_base_packages (env : BaseEnv) (image : Image) (info : BaseInfo) :
    BaseResult :=
  let origin := "command_lib/base.yml"
  match env.listing with
  | some listing =>
      let image1 :=
        if ((env.get_image_shell listing).1).isEmpty then
          (image.add_notice ⟨origin, env.no_shell_listing, "warning"⟩).add_notice
            ⟨origin, env.no_listing_for_base_key, "hint"⟩
        else image
      if env.check_container then
        let names := (invokedAttr env listing info.names).1
        let n_msg := (invokedAttr env listing info.names).2
        let versions := (invokedAttr env listing info.versions).1
        let v_msg := (invokedAttr env listing info.versions).2
        let licenses := (invokedAttr env listing info.licenses).1
        let l_msg := (invokedAttr env listing info.licenses).2
        let src_urls := (invokedAttr env listing info.src_urls).1
        let u_msg := (invokedAttr env listing info.src_urls).2
        let invoke_msg := n_msg ++ v_msg ++ l_msg ++ u_msg
        let image2 :=
          if invoke_msg.isEmpty then image1
          else image1.add_notice ⟨origin, invoke_msg, "error"⟩
        let r :=
          if names ≠ [] ∧ names.length > 1 then
            baseLoopAux names versions licenses src_urls
              (List.range names.length) image2.layers []
          else (image2.layers, [])
        let image3 := { image2 with layers := r.1 }
        { image := image3, cached := image3.layers, logged := [],
          constructed := r.2 }
      else
        { image := image1, cached := [],
          logged := [env.no_running_docker_container], constructed := [] }
  | none =>
      { image := image.add_notice ⟨origin, env.no_image_tag_listing, "error"⟩,
        cached := [], logged := [], constructed := [] }

/-! ## Package metadata filler (`fill_package_metadata`,
`get_package_dependencies`) -/

/-- Environment of the snippet-level functions: the key lookup
`cmdlib.check_library_key(pkg_listing, key)` returning a sub-listing (or
an absence, with a diagnostic message either way) and the attribute
invoker `cmdlib.get_pkg_attr_list(shell, listing, package_name)`.
Listings are abstract string tokens. -/
structure SnippetEnv where
  check_library_key : String → String → Option String × String
  get_pkg_attr_list : String → String → String → List String × String

/-- The version block of `fill_package_metadata`: resolve the `version`
key; when present, invoke it bound to the package name and take the first
returned value, attaching an error notice when the invocation returned
nothing; when absent, attach a warning notice. -/
def fill_version (env : SnippetEnv) (pkg_obj : Package)
    (pkg_listing shell : String) : Package :=
  let origin := "command_lib/snippets.yml"
  match (env.check_library_key pkg_listing "version").1 with
  | some version_listing =>
      match (env.get_pkg_attr_list shell version_listing pkg_obj.name).1 with
      | v :: _ => { pkg_obj with version := v }
      | [] =>
          pkg_obj.add_notice
            ⟨origin, (env.get_pkg_attr_list shell version_listing pkg_obj.name).2,
              "error"⟩
  | none =>
      pkg_obj.add_notice
        ⟨origin, (env.check_library_key pkg_listing "version").2, "warning"⟩

/-- The license block of `fill_package_metadata`: same shape as the
version block, under the `license` key. -/
def fill_license (env : SnippetEnv) (pkg_obj : Package)
    (pkg_listing shell : String) : Package :=
  let origin := "command_lib/snippets.yml"
  match (env.check_library_key pkg_listing "license").1 with
  | some license_listing =>
      match (env.get_pkg_attr_list shell license_listing pkg_obj.name).1 with
      | v :: _ => { pkg_obj with license := v }
      | [] =>
          pkg_obj.add_notice
            ⟨origin, (env.get_pkg_attr_list shell license_listing pkg_obj.name).2,
              "error"⟩
  | none =>
      pkg_obj.add_notice
        ⟨origin, (env.check_library_key pkg_listing "license").2, "warning"⟩

/-- The source-URL block of `fill_package_metadata`.  As in the source,
the listing is resolved under the `license` key (not a dedicated source
URL key); on a non-empty invocation the first value becomes `src_url`. -/
def fill_src_url (env : SnippetEnv) (pkg_obj : Package)
    (pkg_listing shell : String) : Package :=
  let origin := "command_lib/snippets.yml"
  match (env.check_library_key pkg_listing "license").1 with
  | some url_listing =>
      match (env.get_pkg_attr_list shell url_listing pkg_obj.name).1 with
      | v :: _ => { pkg_obj with src_url := v }
      | [] =>
          pkg_obj.add_notice
            ⟨origin, (env.get_pkg_attr_list shell url_listing pkg_obj.name).2,
              "error"⟩
  | none =>
      pkg_obj.add_notice
        ⟨origin, (env.check_library_key pkg_listing "license").2, "warning"⟩

/-- Embeds `fill_package_metadata(pkg_obj, pkg_listing, shell)`: runs the
version, license and source-URL blocks in order; none of them aborts the
others. -/
def fill_package_metadata (env : SnippetEnv) (pkg_obj : Package)
    (pkg_listing shell : String) : Package :=
  fill_src_url env
    (fill_license env (fill_version env pkg_obj pkg_listing shell)
      pkg_listing shell)
    pkg_listing shell

/-- Embeds `get_package_dependencies(package_listing, package_name, shell)`:
resolve the `deps` key; when present invoke it and return the
deduplicated values (the source's `list(set(deps_list))`) with an empty
message; on an empty invocation or an absent listing return an empty list
with the diagnostic message. -/
def get_package_dependencies (env : SnippetEnv)
    (package_listing package_name shell : String) : List String × String :=
  match (env.check_library_key package_listing "deps").1 with
  | some deps_listing =>
      match (env.get_pkg_attr_list shell deps_listing package_name).1 with
      | d :: ds => ((d :: ds).dedup, "")
      | [] => ([], (env.get_pkg_attr_list shell deps_listing package_name).2)
  | none => ([], (env.check_library_key package_listing "deps").2)

/-! ## Concrete fixtures used by witnesses and counterexamples -/

/-- A concrete two-layer image. -/
def wImage : Image :=
  { name := "debian", tag := "stable",
    layers := [{ id := "layerone" }, { id := "layertwo" }] }

/-- The base-section attribute keys as `add_base_packages` receives them. -/
def wInfo : BaseInfo :=
  { names := "names", versions := "versions", licenses := "licenses",
    src_urls := "src_urls" }

/-- A base environment with a listing, a declared shell, a running
container and four aligned two-element attribute lists. -/
def wBaseEnv : BaseEnv :=
  { listing := some "baselisting",
    get_image_shell := fun _ => ("/bin/bash", ""),
    check_container := true,
    get_pkg_attr_list := fun _ key =>
      if key = "names" then (["a", "b"], "")
      else if key = "versions" then (["1.0", "2.0"], "")
      else if key = "licenses" then (["MIT", "MIT"], "")
      else (["u1", "u2"], ""),
    shell := "/bin/sh",
    no_shell_listing := "no shell listing",
    no_listing_for_base_key := "please add a listing",
    no_running_docker_container := "no running docker container",
    no_image_tag_listing := "no image tag listing" }

/-- A base environment whose listing declares no shell and whose
container check fails. -/
def cexBaseEnv : BaseEnv :=
  { wBaseEnv with
    get_image_shell := fun _ => ("", "no shell found"),
    check_container := false }

/-- A base environment with a declared shell and a failing container
check. -/
def w2BaseEnv : BaseEnv := { wBaseEnv with check_container := false }

/-- A base environment whose names invocation returns a single entry. -/
def w8BaseEnv : BaseEnv :=
  { wBaseEnv with
    get_pkg_attr_list := fun _ key =>
      if key = "names" then (["onlyone"], "")
      else (["x", "y"], "") }

/-- A snippet environment whose `license` key resolves and whose
invocations return two candidate values. -/
def wSnippetEnv : SnippetEnv :=
  { check_library_key := fun _ key =>
      if key = "license" then (some "licenselisting", "")
      else (none, "no listing for key"),
    get_pkg_attr_list := fun _ _ _ => (["first", "second"], "") }

/-- A snippet environment whose `deps` key resolves and whose invocation
returns duplicated raw values. -/
def wDepsEnv : SnippetEnv :=
  { check_library_key := fun _ key =>
      if key = "deps" then (some "depslisting", "")
      else (none, "no listing for key"),
    get_pkg_attr_list := fun _ _ _ => (["libc", "libssl", "libc"], "") }

/-- A cache environment holding one package for `layertwo` and nothing
else. -/
def wCacheEnv : CacheEnv :=
  { get_packages := fun lid =>
      if lid = "layertwo" then some [{ name := "cachedpkg", version := "3" }]
      else none,
    get_image_option := "debian:stable",
    loading_from_cache := fun lid => "loaded from cache " ++ lid }

/-- A two-layer image whose first layer already holds a package. -/
def wCacheImage : Image :=
  { name := "debian", tag := "stable",
    layers := [{ id := "layerone", packages := [{ name := "preexisting" }] },
               { id := "layertwo" }] }

theorem commandText_cons (c : Command) (l : List Command) :
    commandText (c :: l) = c.shell_command ++ "\n" ++ commandText l := rfl

theorem removeIgnoredAux_spec (acc : String) (filtered : List Command) :
    ∀ l : List Command,
      removeIgnoredAux acc filtered l =
        (acc ++ commandText (ignoredOf l),
         filtered ++ l.filter (fun c => !(c.is_set && c.is_ignore)))
  | [] => by
      rw [removeIgnoredAux, ignoredOf]
      rw [List.filter_nil, List.filter_nil, commandText, String.append_empty,
        List.append_nil]
  | c :: rest => by
      by_cases h : (c.is_set && c.is_ignore) = true
      · have hs : c.is_set = true := by revert h; cases c.is_set <;> simp
        have hi : c.is_ignore = true := by revert h; cases c.is_ignore <;> simp
        rw [removeIgnoredAux, if_pos h, removeIgnoredAux_spec]
        simp [ignoredOf, List.filter_cons, hs, hi, commandText_cons,
          String.append_assoc]
      · have h0 : (c.is_set && c.is_ignore) = false := by
          revert h; cases c.is_set && c.is_ignore <;> simp
        rw [removeIgnoredAux, if_neg h, removeIgnoredAux_spec]
        simp only [ignoredOf, List.filter_cons, h0, Bool.not_false]
        simp [List.append_assoc]

theorem removeUnrecognizedAux_spec (acc : String) (filtered : List Command) :
    ∀ l : List Command,
      removeUnrecognizedAux acc filtered l =
        (acc ++ commandText (unrecognizedOf l),
         filtered ++ l.filter (fun c => c.is_set))
  | [] => by
      rw [removeUnrecognizedAux, unrecognizedOf]
      rw [List.filter_nil, List.filter_nil, commandText, String.append_empty,
        List.append_nil]
  | c :: rest => by
      by_cases h : c.is_set = true
      · rw [removeUnrecognizedAux, if_neg (by simp [h]), removeUnrecognizedAux_spec]
        simp [unrecognizedOf, List.filter_cons, h, List.append_assoc]
      · have h0 : c.is_set = false := by
          revert h; cases c.is_set <;> simp
        rw [removeUnrecognizedAux, if_pos (by simp [h0]), removeUnrecognizedAux_spec]
        simp only [unrecognizedOf, List.filter_cons, h0, Bool.not_false]
        simp [commandText_cons, String.append_assoc]

theorem remove_ignored_commands_spec (l : List Command) :
    remove_ignored_commands l =
      (commandText (ignoredOf l),
       l.filter (fun c => !(c.is_set && c.is_ignore))) := by
  rw [remove_ignored_commands, removeIgnoredAux_spec]
  rw [String.empty_append, List.nil_append]

theorem remove_unrecognized_commands_spec (l : List Command) :
    remove_unrecognized_commands l =
      (commandText (unrecognizedOf l), l.filter (fun c => c.is_set)) := by
  rw [remove_unrecognized_commands, removeUnrecognizedAux_spec]
  rw [String.empty_append, List.nil_append]

/-! ## Layer cache bridge (`load_from_cache`) -/

theorem foldl_add_package (ds : List PkgDict) (ly : Layer) :
    ds.foldl (fun ly pd => ly.add_package (pkgOfDict pd)) ly =
      { ly with packages := ly.packages ++ ds.map pkgOfDict } := by
  induction ds generalizing ly with
  | nil => simp
  | cons d ds ih =>
      rw [List.foldl_cons, ih]
      simp [Layer.add_package]

theorem load_layer_of_nonempty (env : CacheEnv) (layer : Layer)
    (h : layer.packages ≠ []) : load_layer env layer = (layer, true, []) := by
  rw [load_layer, if_neg]
  simp [List.isEmpty_iff, h]

theorem load_layer_full_iff (env : CacheEnv) (layer : Layer) :
    (load_layer env layer).2.1 = true ↔
      (load_layer env layer).1.packages ≠ [] := by
  cases hp : layer.packages with
  | nil =>
      rw [load_layer, if_pos (by simp [hp])]
      cases hc : env.get_packages layer.id with
      | none => simp [hp]
      | some raw =>
          cases raw with
          | nil => simp [hp]
          | cons d ds =>
              simp only [foldl_add_package]
              simp [Layer.add_notice, hp]
  | cons p ps =>
      rw [load_layer_of_nonempty env layer (by simp [hp])]
      simp [hp]

theorem load_layer_queries (env : CacheEnv) (layer : Layer) :
    (load_layer env layer).2.2 =
      if layer.packages.isEmpty then [layer.id] else [] := by
  by_cases hp : layer.packages.isEmpty
  · rw [load_layer, if_pos hp, if_pos hp]
    cases hc : env.get_packages layer.id with
    | none => rfl
    | some raw => cases raw <;> rfl
  · rw [load_layer, if_neg hp, if_neg hp]

theorem loadLayersAux_fst (env : CacheEnv) (ls : List Layer) :
    (loadLayersAux env ls).1 = ls.map (fun l => (load_layer env l).1) := by
  induction ls with
  | nil => rfl
  | cons l rest ih => rw [loadLayersAux]; simp [ih]

theorem loadLayersAux_full (env : CacheEnv) (ls : List Layer) :
    (loadLayersAux env ls).2.1 = true ↔
      ∀ layer ∈ (loadLayersAux env ls).1, layer.packages ≠ [] := by
  induction ls with
  | nil => simp [loadLayersAux]
  | cons l rest ih =>
      rw [loadLayersAux]
      simp only [List.mem_cons, Bool.and_eq_true]
      constructor
      · rintro ⟨h1, h2⟩ layer hm
        rcases hm with hm | hm
        · subst hm; exact (load_layer_full_iff env l).mp h1
        · exact ih.mp h2 layer hm
      · intro h
        refine ⟨(load_layer_full_iff env l).mpr (h _ (Or.inl rfl)), ?_⟩
        exact ih.mpr (fun layer hm => h layer (Or.inr hm))

theorem loadLayersAux_queries (env : CacheEnv) (ls : List Layer) :
    (loadLayersAux env ls).2.2 =
      (ls.filter (fun l => l.packages.isEmpty)).map Layer.id := by
  induction ls with
  | nil => rfl
  | cons l rest ih =>
      rw [loadLayersAux]
      by_cases hp : l.packages.isEmpty
      · simp only [List.filter_cons, hp]
        simp [load_layer_queries, hp, ih]
      · simp only [List.filter_cons]
        simp [load_layer_queries, hp, ih]

/-! ## Base package loader (`add_base_packages`) -/


theorem baseLoopAux_spec (names versions licenses src_urls : List String) :
    ∀ (idxs : List Nat) (layers : List Layer) (constructed : List Package),
      baseLoopAux names versions licenses src_urls idxs layers constructed =
        ((if src_urls.length = names.length then
            layers.map (fun ly =>
              { ly with packages := ly.packages ++
                  idxs.map (buildBasePkg names versions licenses src_urls) })
          else layers),
         constructed ++ idxs.map (buildBasePkg names versions licenses src_urls))
  | [], layers, constructed => by
      by_cases h : src_urls.length = names.length
      · simp [baseLoopAux, h]
      · simp [baseLoopAux, h]
  | index :: rest, layers, constructed => by
      by_cases h : src_urls.length = names.length
      · rw [baseLoopAux, if_pos h, baseLoopAux_spec, if_pos h, if_pos h]
        rw [Prod.mk.injEq]
        constructor
        · rw [List.map_map]
          apply List.map_congr_left
          intro ly _
          simp [Layer.add_package, Function.comp]
        · simp
      · rw [baseLoopAux, if_neg h, baseLoopAux_spec, if_neg h, if_neg h]
        simp

theorem add_base_packages_container_spec (env : BaseEnv) (image : Image)
    (info : BaseInfo) (l : String) (hl : env.listing = some l)
    (hc : env.check_container = true) :
    ((add_base_packages env image info).image.layers =
       (if (invokedAttr env l info.names).1 ≠ [] ∧
           (invokedAttr env l info.names).1.length > 1 then
          (baseLoopAux (invokedAttr env l info.names).1
            (invokedAttr env l info.versions).1
            (invokedAttr env l info.licenses).1
            (invokedAttr env l info.src_urls).1
            (List.range (invokedAttr env l info.names).1.length)
            image.layers []).1
        else image.layers)) ∧
    ((add_base_packages env image info).constructed =
       (if (invokedAttr env l info.names).1 ≠ [] ∧
           (invokedAttr env l info.names).1.length > 1 then
          (baseLoopAux (invokedAttr env l info.names).1
            (invokedAttr env l info.versions).1
            (invokedAttr env l info.licenses).1
            (invokedAttr env l info.src_urls).1
            (List.range (invokedAttr env l info.names).1.length)
            image.layers []).2
        else [])) ∧
    ((add_base_packages env image info).cached =
       (add_base_packages env image info).image.layers) ∧
    ((add_base_packages env image info).logged = []) := by
  refine ⟨?_, ?_, ?_, ?_⟩ <;>
    simp [add_base_packages, hl, hc, apply_ite Image.layers, Image.add_notice,
      apply_ite (Prod.fst (α := List Layer) (β := List Package)),
      apply_ite (Prod.snd (α := List Layer) (β := List Package))]

theorem baseLoopAux_layers_shape (n v lc u : List String) (idxs : List Nat)
    (layers : List Layer) :
    ((baseLoopAux n v lc u idxs layers []).1).length = layers.length ∧
    ((baseLoopAux n v lc u idxs layers []).1).map Layer.id =
      layers.map Layer.id := by
  rw [baseLoopAux_spec]
  by_cases h : u.length = n.length
  · rw [if_pos h]
    refine ⟨List.length_map _ _, ?_⟩
    rw [List.map_map]
    apply List.map_congr_left
    intro ly _
    rfl
  · rw [if_neg h]
    exact ⟨rfl, rfl⟩


theorem fill_version_name (env : SnippetEnv) (p : Package) (pl s : String) :
    (fill_version env p pl s).name = p.name := by
  cases hk : (env.check_library_key pl "version").1 with
  | none => simp [fill_version, hk, Package.add_notice]
  | some vl =>
      cases hv : (env.get_pkg_attr_list s vl p.name).1 with
      | nil => simp [fill_version, hk, hv, Package.add_notice]
      | cons v vs => simp [fill_version, hk, hv]

theorem fill_version_src_url (env : SnippetEnv) (p : Package) (pl s : String) :
    (fill_version env p pl s).src_url = p.src_url := by
  cases hk : (env.check_library_key pl "version").1 with
  | none => simp [fill_version, hk, Package.add_notice]
  | some vl =>
      cases hv : (env.get_pkg_attr_list s vl p.name).1 with
      | nil => simp [fill_version, hk, hv, Package.add_notice]
      | cons v vs => simp [fill_version, hk, hv]

theorem fill_license_name (env : SnippetEnv) (p : Package) (pl s : String) :
    (fill_license env p pl s).name = p.name := by
  cases hk : (env.check_library_key pl "license").1 with
  | none => simp [fill_license, hk, Package.add_notice]
  | some vl =>
      cases hv : (env.get_pkg_attr_list s vl p.name).1 with
      | nil => simp [fill_license, hk, hv, Package.add_notice]
      | cons v vs => simp [fill_license, hk, hv]

theorem fill_license_src_url (env : SnippetEnv) (p : Package) (pl s : String) :
    (fill_license env p pl s).src_url = p.src_url := by
  cases hk : (env.check_library_key pl "license").1 with
  | none => simp [fill_license, hk, Package.add_notice]
  | some vl =>
      cases hv : (env.get_pkg_attr_list s vl p.name).1 with
      | nil => simp [fill_license, hk, hv, Package.add_notice]
      | cons v vs => simp [fill_license, hk, hv]

/-! ## Claim theorems -/

/-- Claim C5: composing `remove_ignored_commands` and
`remove_unrecognized_commands` partitions the input command list: the
multiset union of the commands emitted as ignored text, the commands
emitted as unrecognized text and the commands of the final filtered list
equals the original input, and the final filtered list preserves the
input's relative order (it is a sublist of the input). -/
theorem command_filter_partition (l : List Command) :
    ((ignoredOf l : Multiset Command) +
        (unrecognizedOf (remove_ignored_commands l).2 : Multiset Command) +
        ((remove_unrecognized_commands (remove_ignored_commands l).2).2 :
          Multiset Command) =
      (l : Multiset Command)) ∧
    (remove_ignored_commands l).1 = commandText (ignoredOf l) ∧
    (remove_unrecognized_commands (remove_ignored_commands l).2).1 =
      commandText (unrecognizedOf (remove_ignored_commands l).2) ∧
    List.Sublist (remove_unrecognized_commands (remove_ignored_commands l).2).2
      l := by
  have e1 : (remove_ignored_commands l).2 =
      l.filter (fun c => !(c.is_set && c.is_ignore)) :=
    congrArg Prod.snd (remove_ignored_commands_spec l)
  have e2 : (remove_unrecognized_commands (remove_ignored_commands l).2).2 =
      ((remove_ignored_commands l).2).filter (fun c => c.is_set) :=
    congrArg Prod.snd (remove_unrecognized_commands_spec _)
  refine ⟨?_, congrArg Prod.fst (remove_ignored_commands_spec l),
    congrArg Prod.fst (remove_unrecognized_commands_spec _), ?_⟩
  · rw [e2, e1, ignoredOf, unrecognizedOf]
    have pA : List.Perm
        (l.filter (fun c => c.is_set && c.is_ignore) ++
          l.filter (fun c => !(c.is_set && c.is_ignore))) l :=
      List.filter_append_perm _ l
    have pB : List.Perm
        ((l.filter (fun c => !(c.is_set && c.is_ignore))).filter
            (fun c => !c.is_set) ++
          (l.filter (fun c => !(c.is_set && c.is_ignore))).filter
            (fun c => c.is_set))
        (l.filter (fun c => !(c.is_set && c.is_ignore))) := by
      have h := List.filter_append_perm (fun c : Command => !c.is_set)
        (l.filter (fun c => !(c.is_set && c.is_ignore)))
      simp only [Bool.not_not] at h
      exact h
    have pAll : List.Perm
        (l.filter (fun c => c.is_set && c.is_ignore) ++
          ((l.filter (fun c => !(c.is_set && c.is_ignore))).filter
              (fun c => !c.is_set) ++
            (l.filter (fun c => !(c.is_set && c.is_ignore))).filter
              (fun c => c.is_set))) l :=
      ((List.Perm.append_left _ pB).trans pA)
    calc (l.filter (fun c => c.is_set && c.is_ignore) : Multiset Command) +
          ((l.filter (fun c => !(c.is_set && c.is_ignore))).filter
              (fun c => !c.is_set) : Multiset Command) +
          ((l.filter (fun c => !(c.is_set && c.is_ignore))).filter
              (fun c => c.is_set) : Multiset Command)
        = ((l.filter (fun c => c.is_set && c.is_ignore) ++
            ((l.filter (fun c => !(c.is_set && c.is_ignore))).filter
                (fun c => !c.is_set) ++
              (l.filter (fun c => !(c.is_set && c.is_ignore))).filter
                (fun c => c.is_set))) : List Command) := by
          rw [add_assoc]
          norm_cast
      _ = (l : Multiset Command) := Multiset.coe_eq_coe.mpr pAll
  · rw [e2, e1]
    exact (List.filter_sublist _).trans (List.filter_sublist _)

/-- Claim C10: `remove_ignored_commands` removes a command only when it is
both recognized and classified ignore; a command classified ignore but not
recognized stays in its filtered output, is emitted as unrecognized text
by the subsequent `remove_unrecognized_commands` call, and is absent from
the final filtered list. -/
theorem remove_ignored_only_removes_recognized (l : List Command)
    (c : Command) (hmem : c ∈ l) (hig : c.is_ignore = true)
    (hset : c.is_set = false) :
    (remove_ignored_commands l).2 =
      l.filter (fun d => !(d.is_set && d.is_ignore)) ∧
    c ∈ (remove_ignored_commands l).2 ∧
    c ∈ unrecognizedOf (remove_ignored_commands l).2 ∧
    (remove_unrecognized_commands (remove_ignored_commands l).2).1 =
      commandText (unrecognizedOf (remove_ignored_commands l).2) ∧
    c ∉ (remove_unrecognized_commands (remove_ignored_commands l).2).2 := by
  have e1 : (remove_ignored_commands l).2 =
      l.filter (fun d => !(d.is_set && d.is_ignore)) :=
    congrArg Prod.snd (remove_ignored_commands_spec l)
  have e2 : (remove_unrecognized_commands (remove_ignored_commands l).2).2 =
      ((remove_ignored_commands l).2).filter (fun d => d.is_set) :=
    congrArg Prod.snd (remove_unrecognized_commands_spec _)
  have hstay : c ∈ (remove_ignored_commands l).2 := by
    rw [e1]
    exact List.mem_filter.mpr ⟨hmem, by simp [hset]⟩
  refine ⟨e1, hstay, ?_, congrArg Prod.fst (remove_unrecognized_commands_spec _), ?_⟩
  · exact List.mem_filter.mpr ⟨hstay, by simp [hset]⟩
  · rw [e2]
    intro hbad
    have h2 := (List.mem_filter.mp hbad).2
    rw [hset] at h2
    exact absurd h2 (by decide)

/-- Claim C10 witness: a concrete unrecognized ignore-classified command
survives the ignore filter and is dropped, as unrecognized, by the second
filter. -/
theorem remove_ignored_only_removes_recognized_witness :
    (({ shell_command := "foo bar", is_set := false, is_ignore := true } :
        Command) ∈
      [({ shell_command := "foo bar", is_set := false, is_ignore := true } :
        Command)] ∧
      ({ shell_command := "foo bar", is_set := false, is_ignore := true } :
        Command).is_ignore = true ∧
      ({ shell_command := "foo bar", is_set := false, is_ignore := true } :
        Command).is_set = false) ∧
    (({ shell_command := "foo bar", is_set := false, is_ignore := true } :
        Command) ∈
      (remove_ignored_commands
        [({ shell_command := "foo bar", is_set := false, is_ignore := true } :
          Command)]).2 ∧
      ({ shell_command := "foo bar", is_set := false, is_ignore := true } :
        Command) ∉
      (remove_unrecognized_commands
        (remove_ignored_commands
          [({ shell_command := "foo bar", is_set := false, is_ignore := true } :
            Command)]).2).2) :=
  ⟨⟨by decide, rfl, rfl⟩,
   ⟨(remove_ignored_only_removes_recognized
        [{ shell_command := "foo bar", is_set := false, is_ignore := true }]
        { shell_command := "foo bar", is_set := false, is_ignore := true }
        (by decide) rfl rfl).2.1,
    (remove_ignored_only_removes_recognized
        [{ shell_command := "foo bar", is_set := false, is_ignore := true }]
        { shell_command := "foo bar", is_set := false, is_ignore := true }
        (by decide) rfl rfl).2.2.2.2⟩⟩

/-- Claim C3: `load_from_cache` returns `is_full = true` if and only if at
the end of the call every layer of the image has a non-empty package
collection (sourced from pre-existing state or from a cache hit). -/
theorem load_from_cache_is_full_iff (env : CacheEnv) (image : Image) :
    (load_from_cache env image).2.1 = true ↔
      ∀ layer ∈ (load_from_cache env image).1.layers, layer.packages ≠ [] := by
  show (loadLayersAux env image.layers).2.1 = true ↔
      ∀ layer ∈ (loadLayersAux env image.layers).1, layer.packages ≠ []
  exact loadLayersAux_full env image.layers

/-- Claim C7: a layer that already holds at least one package when
`load_from_cache` is called is neither mutated nor has its id queried in
the cache; layer ids, being content-addressable layer identities, are
assumed pairwise distinct across the image. -/
theorem load_from_cache_frame (env : CacheEnv) (image : Image)
    (hnd : (image.layers.map Layer.id).Nodup) (i : Nat)
    (hi : i < image.layers.length)
    (hne : (image.layers.getD i dummyLayer).packages ≠ []) :
    (load_from_cache env image).1.layers.getD i dummyLayer =
        image.layers.getD i dummyLayer ∧
      (image.layers.getD i dummyLayer).id ∉
        (load_from_cache env image).2.2 := by
  have hfst : (load_from_cache env image).1.layers =
      image.layers.map (fun l => (load_layer env l).1) :=
    loadLayersAux_fst env image.layers
  have hq : (load_from_cache env image).2.2 =
      (image.layers.filter (fun l => l.packages.isEmpty)).map Layer.id :=
    loadLayersAux_queries env image.layers
  have hgetd : image.layers.getD i dummyLayer = image.layers[i] := by
    rw [List.getD_eq_getElem?_getD, List.getElem?_eq_getElem hi]
    rfl
  rw [hgetd] at hne ⊢
  constructor
  · rw [hfst, List.getD_eq_getElem?_getD, List.getElem?_map,
      List.getElem?_eq_getElem hi]
    simp only [Option.map_some', Option.getD_some]
    rw [load_layer_of_nonempty env _ hne]
  · rw [hq]
    intro hbad
    obtain ⟨lb, hlb, hideq⟩ := List.mem_map.mp hbad
    have hlb2 := List.mem_filter.mp hlb
    have hmema : image.layers[i] ∈ image.layers := List.getElem_mem ..
    have heq : lb = image.layers[i] :=
      List.inj_on_of_nodup_map hnd hlb2.1 hmema hideq
    rw [heq] at hlb2
    have hbad2 := hlb2.2
    simp only [List.isEmpty_iff] at hbad2
    exact hne hbad2

/-- Claim C7 witness: in a concrete two-layer image whose first layer
already holds a package, the call leaves that layer untouched and never
queries its id. -/
theorem load_from_cache_frame_witness :
    ((wCacheImage.layers.map Layer.id).Nodup ∧
      0 < wCacheImage.layers.length ∧
      (wCacheImage.layers.getD 0 dummyLayer).packages ≠ []) ∧
    ((load_from_cache wCacheEnv wCacheImage).1.layers.getD 0 dummyLayer =
        wCacheImage.layers.getD 0 dummyLayer ∧
      (wCacheImage.layers.getD 0 dummyLayer).id ∉
        (load_from_cache wCacheEnv wCacheImage).2.2) :=
  ⟨⟨by decide, by decide, by decide⟩,
   load_from_cache_frame wCacheEnv wCacheImage (by decide) 0 (by decide)
     (by decide)⟩

/-- Claim C1: in `add_base_packages`, package objects are attached to the
image's layers only when the source-URL list passed its length check
against the names list: on a length mismatch no package is added to any
layer, and when names, versions, licenses and source URLs all have equal
length greater than one, the package at each index (with matching
version, license and source URL) is added to every layer of the image. -/
theorem add_base_packages_src_url_gate (env : BaseEnv) (image : Image)
    (info : BaseInfo) (l : String)
    (names versions licenses src_urls : List String)
    (hl : env.listing = some l) (hc : env.check_container = true)
    (hn : (invokedAttr env l info.names).1 = names)
    (hv : (invokedAttr env l info.versions).1 = versions)
    (hlc : (invokedAttr env l info.licenses).1 = licenses)
    (hu : (invokedAttr env l info.src_urls).1 = src_urls) :
    (src_urls.length ≠ names.length →
      (add_base_packages env image info).image.layers = image.layers) ∧
    (versions.length = names.length → licenses.length = names.length →
     src_urls.length = names.length → 1 < names.length →
      ∀ index, index < names.length →
        ∀ layer ∈ (add_base_packages env image info).image.layers,
          ({ name := names.getD index "", version := versions.getD index "",
             license := licenses.getD index "",
             src_url := src_urls.getD index "" } : Package) ∈
            layer.packages) := by
  obtain ⟨h1, h2, h3, h4⟩ :=
    add_base_packages_container_spec env image info l hl hc
  rw [hn, hv, hlc, hu] at h1
  constructor
  · intro hne
    rw [h1]
    by_cases hg : names ≠ [] ∧ names.length > 1
    · rw [if_pos hg, baseLoopAux_spec, if_neg hne]
    · rw [if_neg hg]
  · intro hveq hleq hueq hlen index hidx layer hmem
    have hg : names ≠ [] ∧ names.length > 1 := by
      refine ⟨?_, hlen⟩
      intro h0
      rw [h0] at hlen
      simp at hlen
    rw [h1, if_pos hg, baseLoopAux_spec, if_pos hueq] at hmem
    obtain ⟨ly, hly, hlayer⟩ := List.mem_map.mp hmem
    have hbuild : buildBasePkg names versions licenses src_urls index =
        ({ name := names.getD index "", version := versions.getD index "",
           license := licenses.getD index "",
           src_url := src_urls.getD index "" } : Package) := by
      simp [buildBasePkg, hveq, hleq, hueq]
    rw [← hlayer]
    show _ ∈ ly.packages ++
      (List.range names.length).map
        (buildBasePkg names versions licenses src_urls)
    refine List.mem_append_right _ ?_
    exact List.mem_map.mpr ⟨index, List.mem_range.mpr hidx, hbuild⟩

/-- Claim C1 witness: with four aligned two-element attribute lists the
first package, fully filled, lands in every layer of a concrete two-layer
image. -/
theorem add_base_packages_src_url_gate_witness :
    (wBaseEnv.listing = some "baselisting" ∧
      wBaseEnv.check_container = true ∧
      (invokedAttr wBaseEnv "baselisting" wInfo.names).1 = ["a", "b"] ∧
      (invokedAttr wBaseEnv "baselisting" wInfo.src_urls).1 = ["u1", "u2"]) ∧
    (∀ layer ∈ (add_base_packages wBaseEnv wImage wInfo).image.layers,
      ({ name := "a", version := "1.0", license := "MIT",
         src_url := "u1" } : Package) ∈ layer.packages) :=
  ⟨⟨rfl, rfl, by decide, by decide⟩,
   (add_base_packages_src_url_gate wBaseEnv wImage wInfo "baselisting"
      ["a", "b"] ["1.0", "2.0"] ["MIT", "MIT"] ["u1", "u2"]
      rfl rfl (by decide) (by decide) (by decide) (by decide)).2
     (by decide) (by decide) (by decide) (by decide) 0 (by decide)⟩

/-- Claim C2 (amended): when the base listing exists, its shell lookup
yields a non-empty shell, and the container-state check fails,
`add_base_packages` reports the condition through the logger only and
returns without any mutation of the image: no notice is attached, no
package is added and nothing is cached. -/
theorem add_base_packages_no_container (env : BaseEnv) (image : Image)
    (info : BaseInfo) (l : String) (hl : env.listing = some l)
    (hs : ((env.get_image_shell l).1).isEmpty = false)
    (hc : env.check_container = false) :
    add_base_packages env image info =
      { image := image, cached := [],
        logged := [env.no_running_docker_container], constructed := [] } := by
  simp [add_base_packages, hl, hs, hc]

/-- Claim C2 witness: a concrete environment with a declared shell and a
failing container check leaves a concrete image untouched and logs the
no-running-container error. -/
theorem add_base_packages_no_container_witness :
    (w2BaseEnv.listing = some "baselisting" ∧
      ((w2BaseEnv.get_image_shell "baselisting").1).isEmpty = false ∧
      w2BaseEnv.check_container = false) ∧
    add_base_packages w2BaseEnv wImage wInfo =
      { image := wImage, cached := [],
        logged := [w2BaseEnv.no_running_docker_container],
        constructed := [] } :=
  ⟨⟨rfl, by decide, rfl⟩,
   add_base_packages_no_container w2BaseEnv wImage wInfo "baselisting" rfl
     (by decide) rfl⟩

/-- Claim C2 counterexample: when the base listing exists but declares no
shell, and the container-state check fails, `add_base_packages` still
mutates the image — the shell warning and hint notices are attached
before the container check runs — contradicting the claim that no notice
is attached to the image. -/
theorem add_base_packages_no_container_cex :
    cexBaseEnv.listing = some "baselisting" ∧
    cexBaseEnv.check_container = false ∧
    wImage.notices = [] ∧
    (add_base_packages cexBaseEnv wImage wInfo).image.notices ≠ [] := by
  refine ⟨rfl, rfl, rfl, ?_⟩
  decide

/-- Claim C8: when the invoked names list is empty or has exactly one
entry, `add_base_packages` constructs no Package object at all. -/
theorem add_base_packages_short_names (env : BaseEnv) (image : Image)
    (info : BaseInfo) (l : String) (names : List String)
    (hl : env.listing = some l) (hc : env.check_container = true)
    (hn : (invokedAttr env l info.names).1 = names)
    (hlen : names.length ≤ 1) :
    (add_base_packages env image info).constructed = [] := by
  obtain ⟨h1, h2, h3, h4⟩ :=
    add_base_packages_container_spec env image info l hl hc
  rw [hn] at h2
  rw [h2, if_neg (fun hg => absurd hg.2 (not_lt.mpr hlen))]

/-- Claim C8 witness: with a names invocation returning a single entry,
no package is constructed. -/
theorem add_base_packages_short_names_witness :
    (w8BaseEnv.listing = some "baselisting" ∧
      w8BaseEnv.check_container = true ∧
      (invokedAttr w8BaseEnv "baselisting" wInfo.names).1 = ["onlyone"] ∧
      (["onlyone"] : List String).length ≤ 1) ∧
    (add_base_packages w8BaseEnv wImage wInfo).constructed = [] :=
  ⟨⟨rfl, rfl, by decide, by decide⟩,
   add_base_packages_short_names w8BaseEnv wImage wInfo "baselisting"
     ["onlyone"] rfl rfl (by decide) (by decide)⟩

/-- Claim C9: whenever `add_base_packages` runs with a base listing
present and the container check succeeding, every layer of the image is
passed to `cache.add_layer` (the cached layers are exactly the image's
layers, whose count and ids are preserved), with nothing logged — in
particular this holds even when no package was constructed or attached. -/
theorem add_base_packages_caches_every_layer (env : BaseEnv) (image : Image)
    (info : BaseInfo) (l : String)
    (hl : env.listing = some l) (hc : env.check_container = true) :
    (add_base_packages env image info).cached =
      (add_base_packages env image info).image.layers ∧
    (add_base_packages env image info).image.layers.length =
      image.layers.length ∧
    (add_base_packages env image info).image.layers.map Layer.id =
      image.layers.map Layer.id ∧
    (add_base_packages env image info).logged = [] := by
  obtain ⟨h1, h2, h3, h4⟩ :=
    add_base_packages_container_spec env image info l hl hc
  refine ⟨h3, ?_, ?_, h4⟩
  · rw [h1]
    by_cases hg : (invokedAttr env l info.names).1 ≠ [] ∧
        (invokedAttr env l info.names).1.length > 1
    · rw [if_pos hg]
      exact (baseLoopAux_layers_shape _ _ _ _ _ _).1
    · rw [if_neg hg]
  · rw [h1]
    by_cases hg : (invokedAttr env l info.names).1 ≠ [] ∧
        (invokedAttr env l info.names).1.length > 1
    · rw [if_pos hg]
      exact (baseLoopAux_layers_shape _ _ _ _ _ _).2
    · rw [if_neg hg]

/-- Claim C9 witness: a concrete run in which the names invocation
returns a single entry — so no package is constructed — still passes both
layers to the cache. -/
theorem add_base_packages_caches_every_layer_witness :
    (w8BaseEnv.listing = some "baselisting" ∧
      w8BaseEnv.check_container = true) ∧
    ((add_base_packages w8BaseEnv wImage wInfo).cached =
        (add_base_packages w8BaseEnv wImage wInfo).image.layers ∧
      (add_base_packages w8BaseEnv wImage wInfo).image.layers.length =
        wImage.layers.length ∧
      (add_base_packages w8BaseEnv wImage wInfo).image.layers.map Layer.id =
        wImage.layers.map Layer.id ∧
      (add_base_packages w8BaseEnv wImage wInfo).logged = []) :=
  ⟨⟨rfl, rfl⟩,
   add_base_packages_caches_every_layer w8BaseEnv wImage wInfo "baselisting"
     rfl rfl⟩

/-- Claim C4: in `fill_package_metadata`, the source-URL attribute's
listing is resolved under the `license` key, so the src_url branch
succeeds or fails exactly according to the presence of the `license` key,
and on success `src_url` is set to the first value returned by invoking
the license listing. -/
theorem fill_metadata_src_url_from_license_key (env : SnippetEnv)
    (pkg_obj : Package) (pkg_listing shell : String) :
    ((env.check_library_key pkg_listing "license").1 = none →
       (fill_package_metadata env pkg_obj pkg_listing shell).src_url =
         pkg_obj.src_url) ∧
    (∀ ll, (env.check_library_key pkg_listing "license").1 = some ll →
       ((env.get_pkg_attr_list shell ll pkg_obj.name).1 = [] →
          (fill_package_metadata env pkg_obj pkg_listing shell).src_url =
            pkg_obj.src_url) ∧
       (∀ u us,
          (env.get_pkg_attr_list shell ll pkg_obj.name).1 = u :: us →
          (fill_package_metadata env pkg_obj pkg_listing shell).src_url =
            u)) := by
  have hname :
      (fill_license env (fill_version env pkg_obj pkg_listing shell)
        pkg_listing shell).name = pkg_obj.name := by
    rw [fill_license_name, fill_version_name]
  have hsrc :
      (fill_license env (fill_version env pkg_obj pkg_listing shell)
        pkg_listing shell).src_url = pkg_obj.src_url := by
    rw [fill_license_src_url, fill_version_src_url]
  constructor
  · intro h0
    show (fill_src_url env
        (fill_license env (fill_version env pkg_obj pkg_listing shell)
          pkg_listing shell) pkg_listing shell).src_url = pkg_obj.src_url
    rw [← hsrc]
    simp [fill_src_url, h0, Package.add_notice]
  · intro ll hll
    constructor
    · intro hemp
      show (fill_src_url env
          (fill_license env (fill_version env pkg_obj pkg_listing shell)
            pkg_listing shell) pkg_listing shell).src_url = pkg_obj.src_url
      rw [← hsrc]
      rw [← hname] at hemp
      simp [fill_src_url, hll, hemp, Package.add_notice]
    · intro u us hcons
      show (fill_src_url env
          (fill_license env (fill_version env pkg_obj pkg_listing shell)
            pkg_listing shell) pkg_listing shell).src_url = u
      rw [← hname] at hcons
      simp [fill_src_url, hll, hcons]

/-- Claim C4 witness: with a snippet environment whose `license` key
resolves and whose invocation yields two candidates, the package's
src_url becomes the first candidate. -/
theorem fill_metadata_src_url_from_license_key_witness :
    (wSnippetEnv.check_library_key "pkglisting" "license").1 =
        some "licenselisting" ∧
    (fill_package_metadata wSnippetEnv ({ name := "pkg" } : Package)
        "pkglisting" "sh").src_url = "first" :=
  ⟨by decide,
   ((fill_metadata_src_url_from_license_key wSnippetEnv
        ({ name := "pkg" } : Package) "pkglisting" "sh").2
      "licenselisting" (by decide)).2 "first" ["second"] (by decide)⟩

/-- Claim C6: `get_package_dependencies` returns a sequence without
duplicate names, and whenever the `deps` listing is present the length of
the returned sequence equals the number of distinct values returned by
the invoker. -/
theorem get_package_dependencies_nodup (env : SnippetEnv)
    (package_listing package_name shell : String) :
    (get_package_dependencies env package_listing package_name shell).1.Nodup ∧
    (∀ dl, (env.check_library_key package_listing "deps").1 = some dl →
      (get_package_dependencies env package_listing package_name
          shell).1.length =
        ((env.get_pkg_attr_list shell dl package_name).1).toFinset.card) := by
  constructor
  · rcases hk : (env.check_library_key package_listing "deps").1 with _ | dl
    · simp [get_package_dependencies, hk]
    · rcases hd : (env.get_pkg_attr_list shell dl package_name).1 with _ | ⟨d, ds⟩
      · simp [get_package_dependencies, hk, hd]
      · simp [get_package_dependencies, hk, hd, List.nodup_dedup]
  · intro dl hk
    rcases hd : (env.get_pkg_attr_list shell dl package_name).1 with _ | ⟨d, ds⟩
    · simp [get_package_dependencies, hk, hd]
    · simp only [get_package_dependencies, hk, hd]
      rw [List.card_toFinset]

/-- Claim C6 witness: an invoker returning `libc, libssl, libc` yields a
deduplicated two-element dependency list. -/
theorem get_package_dependencies_nodup_witness :
    (wDepsEnv.check_library_key "pkglisting" "deps").1 = some "depslisting" ∧
    ((get_package_dependencies wDepsEnv "pkglisting" "pkg" "sh").1.Nodup ∧
      (get_package_dependencies wDepsEnv "pkglisting" "pkg" "sh").1.length =
        ((["libc", "libssl", "libc"] : List String)).toFinset.card) :=
  ⟨by decide,
   ⟨(get_package_dependencies_nodup wDepsEnv "pkglisting" "pkg" "sh").1,
    (get_package_dependencies_nodup wDepsEnv "pkglisting" "pkg" "sh").2
      "depslisting" (by decide)⟩⟩

end Tern
